import Mathlib

/-!
Verification of `run_local.py`, the local bootstrap script of
AnyAIInsightAgent.  Python strings are embedded as `List Char` (`Str`),
Python dicts (which preserve insertion order) as association lists
`List (Str × Str)` (`Dict`), and the impure edges of the script
(subprocess results, keyboard interrupts, the filesystem) as explicit
parameters of the embedded functions.
-/

set_option maxRecDepth 4000

namespace RunLocal

/-- A Python string, embedded as its list of characters. -/
abbrev Str := List Char

/-- Convert a Lean string literal to the embedded string type. -/
def str (s : String) : Str := s.data

/-- Python `s.strip()`: remove leading and trailing whitespace. -/
def pyStrip (s : Str) : Str :=
  ((s.dropWhile Char.isWhitespace).reverse.dropWhile Char.isWhitespace).reverse

/-- Python `s.upper()` (the keys in play are ASCII). -/
def pyUpper (s : Str) : Str := s.map Char.toUpper

/-- Python `needle in haystack` for strings: contiguous substring test. -/
def isSubOf (needle : Str) : Str → Bool
  | [] => needle.isEmpty
  | c :: rest => List.isPrefixOf needle (c :: rest) || isSubOf needle rest

/-- A Python dict from string keys to string values, with insertion order. -/
abbrev Dict := List (Str × Str)

/-- Python `key in d`. -/
def hasKey : Dict → Str → Bool
  | [], _ => false
  | (k, _) :: rest, key => k == key || hasKey rest key

/-- Python `d.get(key, "")`: value of the first entry with this key, `""` if absent. -/
def dictGet : Dict → Str → Str
  | [], _ => []
  | (k, v) :: rest, key => if k == key then v else dictGet rest key

/-- Python `d.setdefault(key, v)`: append the pair only when the key is absent. -/
def setdefault (m : Dict) (key v : Str) : Dict :=
  if hasKey m key then m else m ++ [(key, v)]

/-- Python `d[key] = v`: overwrite in place, or append when the key is absent. -/
def dictSet : Dict → Str → Str → Dict
  | [], key, v => [(key, v)]
  | (k, w) :: rest, key, v =>
    if k == key then (k, v) :: rest else (k, w) :: dictSet rest key v

/-- The primary credential slot name. -/
def GEMINI_API_KEY : Str := str "GEMINI_API_KEY"

/-- The secondary credential slot name. -/
def OPENAI_API_KEY : Str := str "OPENAI_API_KEY"

/-- `_remove_inline_comment` (run_local.py:215): `value.split('#', 1)[0].strip()` —
everything from the first `#` on is dropped, then whitespace is stripped. -/
def remove_inline_comment (value : Str) : Str :=
  pyStrip (value.takeWhile (fun c => c != '#'))

/-- `_strip_quotes` (run_local.py:208): strip whitespace, then remove one matching
pair of surrounding double or single quotes (`value[1:-1]`). -/
def strip_quotes (value : Str) : Str :=
  let v := pyStrip value
  if 2 ≤ v.length && v.head? == v.getLast? &&
      (v.head? == some '"' || v.head? == some '\'') then
    (v.drop 1).dropLast
  else v

/-- Python `line.split(sep, 1)` followed by `.strip()` of both parts:
the text before the first `sep` and the text after it, trimmed. -/
def split_first (line : Str) (sep : Char) : Str × Str :=
  (pyStrip (line.takeWhile (fun c => c != sep)),
   pyStrip ((line.dropWhile (fun c => c != sep)).drop 1))

/-- `_parse_key_line` (run_local.py:199): try the separators `=` then `:`;
split at the first occurrence of the first separator present, returning the
trimmed left and right parts; `none` when neither separator occurs. -/
def parse_key_line (line : Str) : Option (Str × Str) :=
  if line.contains '=' then some (split_first line '=')
  else if line.contains ':' then some (split_first line ':')
  else none

/-- The key-classification step of `_load_keys_file` (run_local.py:183-188):
a key whose upper-casing contains both `GEMINI` and `API_KEY` goes to the
primary slot, one containing `OPENAI` and `API_KEY` to the secondary slot,
anything else is kept upper-cased; always through `setdefault`. -/
def classify_key (values : Dict) (key_upper value : Str) : Dict :=
  if isSubOf (str "GEMINI") key_upper && isSubOf (str "API_KEY") key_upper then
    setdefault values GEMINI_API_KEY value
  else if isSubOf (str "OPENAI") key_upper && isSubOf (str "API_KEY") key_upper then
    setdefault values OPENAI_API_KEY value
  else
    setdefault values key_upper value

/-- One iteration of the `for raw_line in content.splitlines()` loop of
`_load_keys_file` (run_local.py:169-188), acting on the pair
(values dict, sequential fallback list). -/
def process_line (acc : Dict × List Str) (raw_line : Str) : Dict × List Str :=
  if (pyStrip raw_line).isEmpty || (pyStrip raw_line).head? == some '#' then acc
  else
    match parse_key_line (pyStrip raw_line) with
    | none =>
      (acc.1, acc.2 ++ [strip_quotes (remove_inline_comment (pyStrip raw_line))])
    | some (key, value0) =>
      (classify_key acc.1 (pyUpper key) (strip_quotes (remove_inline_comment value0)),
       acc.2)

/-- The line-by-line parsing phase of `_load_keys_file` (run_local.py:166-188):
fold `process_line` over the file's lines, starting from an empty dict and an
empty sequential fallback list. -/
def parse_lines (lines : List Str) : Dict × List Str :=
  lines.foldl process_line ([], [])

/-- `if sequential[0]: values.setdefault("GEMINI_API_KEY", sequential[0])`
(run_local.py:191-192): fill the primary slot from a non-empty first entry. -/
def seq_fill_primary (values : Dict) (s0 : Str) : Dict :=
  if s0.isEmpty then values else setdefault values GEMINI_API_KEY s0

/-- `if len(sequential) > 1 and sequential[1]: values.setdefault("OPENAI_API_KEY", ...)`
(run_local.py:193-194): fill the secondary slot from a non-empty second entry. -/
def seq_fill_secondary (values : Dict) (s1 : Str) : Dict :=
  if s1.isEmpty then values else setdefault values OPENAI_API_KEY s1

/-- The positional-fallback phase of `_load_keys_file` (run_local.py:190-194):
when the sequential list is non-empty, `setdefault` the primary slot from its
first element and the secondary slot from its second, skipping empty strings. -/
def apply_sequential (values : Dict) : List Str → Dict
  | [] => values
  | [s0] => seq_fill_primary values s0
  | s0 :: s1 :: _ => seq_fill_secondary (seq_fill_primary values s0) s1

/-- `_load_keys_file` (run_local.py:160) on the lines of an existing file:
parse line by line, then apply the sequential positional fallback. -/
def load_keys_file (lines : List Str) : Dict :=
  let p := parse_lines lines
  apply_sequential p.1 p.2

/-- `_load_keys_file` including the `path.exists()` guard (run_local.py:162):
`none` models a missing Keys.txt and yields the empty dict. -/
def load_keys_from : Option (List Str) → Dict
  | none => []
  | some lines => load_keys_file lines

/-- The list `lines` built by `_format_env` (run_local.py:149-155): the fixed
comment header, the two well-known keys with `values.get(key, "")`, then every
entry whose key is neither well-known key, in dict (insertion) order. -/
def format_env_lines (values : Dict) : List Str :=
  [str "# 環境変数設定",
   GEMINI_API_KEY ++ str "=" ++ dictGet values GEMINI_API_KEY,
   OPENAI_API_KEY ++ str "=" ++ dictGet values OPENAI_API_KEY]
  ++ (values.filter
        (fun p => !(p.1 == GEMINI_API_KEY) && !(p.1 == OPENAI_API_KEY))).map
      (fun p => p.1 ++ str "=" ++ p.2)

/-- `_format_env` (run_local.py:147): `"\n".join(lines) + "\n"`. -/
def format_env (values : Dict) : Str :=
  List.intercalate (str "\n") (format_env_lines values) ++ str "\n"

/-- `_prompt_for_keys` (run_local.py:139): the dict built from the two
interactive answers, each `input(...).strip()`. -/
def prompt_values (gemini_key openai_key : Str) : Dict :=
  [(GEMINI_API_KEY, pyStrip gemini_key), (OPENAI_API_KEY, pyStrip openai_key)]

/-- The interactive prompting step, as seen by `create_env_from_keys`: either
both answers are read, or a KeyboardInterrupt arrives while prompting. -/
inductive PromptResult where
  | answered (gemini_key openai_key : Str)
  | interrupted
  deriving DecidableEq

/-- Outcome of `create_env_from_keys`: either `.env` is written with the given
content (then the success message is printed), or the operation is aborted by
a caught KeyboardInterrupt with nothing written.  The function being total in
this type reflects that no exception escapes `create_env_from_keys`. -/
inductive EnvOutcome where
  | written (content : Str)
  | aborted
  deriving DecidableEq

/-- `create_env_from_keys` (run_local.py:121): parse Keys.txt (empty dict when
the file is missing); when the dict is empty, prompt interactively — a
KeyboardInterrupt there is caught before `Path(".env").write_text(...)` runs,
so nothing is written; otherwise write the formatted content. -/
def create_env_from_keys (keysFile : Option (List Str)) (prompt : PromptResult) :
    EnvOutcome :=
  if (load_keys_from keysFile).isEmpty then
    match prompt with
    | .interrupted => .aborted
    | .answered g o => .written (format_env (prompt_values g o))
  else
    .written (format_env (load_keys_from keysFile))

/-- The interpreter path returned by `install_dependencies`: `sys.executable`
or the `.venv` interpreter from `_resolve_venv_python` (two distinct paths). -/
inductive PythonPath where
  | currentExecutable
  | venvPython
  deriving DecidableEq

/-- The environment `install_dependencies` runs in: the exit status and
captured stderr of `pip install -r requirements.txt`, whether `.venv` already
exists, and whether the two subprocesses of the fallback succeed. -/
structure InstallEnv where
  pipExitCode : Nat
  pipStderr : Str
  venvExists : Bool
  venvCreateOk : Bool
  venvInstallOk : Bool

/-- Result of the installer: the returned path (`none` for Python `None`) and
how many times the `python -m venv .venv` creation command was invoked. -/
structure InstallResult where
  result : Option PythonPath
  venvCreations : Nat
  deriving DecidableEq

/-- `_install_with_virtualenv` (run_local.py:65): create `.venv` only when the
directory does not exist (a failed creation returns `None`); then install the
requirements with the venv interpreter, returning it on success and `None` on
failure. -/
def install_with_virtualenv (env : InstallEnv) : InstallResult :=
  if !env.venvExists then
    if env.venvCreateOk then
      if env.venvInstallOk then ⟨some .venvPython, 1⟩ else ⟨none, 1⟩
    else ⟨none, 1⟩
  else
    if env.venvInstallOk then ⟨some .venvPython, 0⟩ else ⟨none, 0⟩

/-- `install_dependencies` (run_local.py:29): return `sys.executable` on exit
status 0; on failure, fall back to `_install_with_virtualenv` exactly when the
captured stderr contains `externally-managed-environment`, else return `None`. -/
def install_dependencies (env : InstallEnv) : InstallResult :=
  if env.pipExitCode == 0 then ⟨some .currentExecutable, 0⟩
  else if isSubOf (str "externally-managed-environment") env.pipStderr then
    install_with_virtualenv env
  else ⟨none, 0⟩

/-- What the launched child process does: exit with a status, or a
KeyboardInterrupt arrives while `subprocess.run` is blocking. -/
inductive ChildResult where
  | exits (code : Nat)
  | interrupt
  deriving DecidableEq

/-- The subprocess invocation made by `run_application`: interpreter,
arguments, and the environment passed to the child. -/
structure LaunchCall where
  interpreter : Str
  args : List Str
  env : Dict
  deriving DecidableEq

/-- Outcome of `run_application`: clean completion, a caught
`CalledProcessError` reported as an error message, or a caught
KeyboardInterrupt reported as a graceful stop.  Totality in this type
reflects that neither exception propagates out of `run_application`. -/
inductive RunOutcome where
  | completed
  | reportedFailure (code : Nat)
  | reportedStop
  deriving DecidableEq

/-- `run_application` (run_local.py:218): copy `os.environ`, set `PORT` to
`25254`, run `python_exec -m app.main` with `check=True`; a non-zero exit
raises `CalledProcessError` (caught, reported), a KeyboardInterrupt is caught
and reported as a stop. -/
def run_application (python_exec : Str) (osEnviron : Dict) (child : ChildResult) :
    LaunchCall × RunOutcome :=
  let env := dictSet osEnviron (str "PORT") (str "25254")
  let call : LaunchCall := ⟨python_exec, [str "-m", str "app.main"], env⟩
  match child with
  | .exits 0 => (call, .completed)
  | .exits (c + 1) => (call, .reportedFailure (c + 1))
  | .interrupt => (call, .reportedStop)

/-! ### Association-list (Python dict) lemmas -/

theorem hasKey_append_single (m : Dict) (k v key : Str) :
    hasKey (m ++ [(k, v)]) key = (hasKey m key || k == key) := by
  induction m with
  | nil => simp [hasKey]
  | cons p rest ih => cases p; simp [hasKey, ih, Bool.or_assoc]

theorem dictGet_append_of_hasKey (m l : Dict) (key : Str)
    (h : hasKey m key = true) : dictGet (m ++ l) key = dictGet m key := by
  induction m with
  | nil => simp [hasKey] at h
  | cons p rest ih =>
    cases p with
    | mk a b =>
      by_cases hk : a = key
      · simp [dictGet, hk]
      · have : (a == key) = false := by simp [hk]
        simp [hasKey, this] at h
        simp [dictGet, this, ih h]

theorem dictGet_append_single_ne (m : Dict) (k v key : Str) (h : k ≠ key) :
    dictGet (m ++ [(k, v)]) key = dictGet m key := by
  induction m with
  | nil => simp [dictGet, h]
  | cons p rest ih => cases p; simp [dictGet, ih]

theorem setdefault_of_hasKey (m : Dict) (k v : Str) (h : hasKey m k = true) :
    setdefault m k v = m := by
  simp [setdefault, h]

theorem hasKey_setdefault_of (m : Dict) (k v key : Str)
    (h : hasKey m key = true) : hasKey (setdefault m k v) key = true := by
  unfold setdefault
  split
  · exact h
  · rw [hasKey_append_single, h]; rfl

theorem dictGet_setdefault_of_hasKey (m : Dict) (k v key : Str)
    (h : hasKey m key = true) :
    dictGet (setdefault m k v) key = dictGet m key := by
  unfold setdefault
  split
  · rfl
  · exact dictGet_append_of_hasKey m [(k, v)] key h

theorem dictGet_setdefault_ne (m : Dict) (k v key : Str) (h : k ≠ key) :
    dictGet (setdefault m k v) key = dictGet m key := by
  unfold setdefault
  split
  · rfl
  · exact dictGet_append_single_ne m k v key h

theorem hasKey_setdefault_ne (m : Dict) (k v key : Str) (h : k ≠ key) :
    hasKey (setdefault m k v) key = hasKey m key := by
  unfold setdefault
  split
  · rfl
  · rw [hasKey_append_single]
    simp [h]

theorem dictGet_setdefault_self (m : Dict) (k v : Str)
    (h : hasKey m k = false) : dictGet (setdefault m k v) k = v := by
  unfold setdefault
  rw [h]
  simp only [Bool.false_eq_true, if_false]
  induction m with
  | nil => simp [dictGet]
  | cons p rest ih =>
    cases p with
    | mk a b =>
      simp [hasKey, Bool.or_eq_false_iff] at h
      simp [dictGet, h.1, ih h.2]

theorem dictGet_dictSet_self (m : Dict) (k v : Str) :
    dictGet (dictSet m k v) k = v := by
  induction m with
  | nil => simp [dictSet, dictGet]
  | cons p rest ih =>
    cases p with
    | mk a b =>
      by_cases hk : a = k
      · simp [dictSet, dictGet, hk]
      · have : (a == k) = false := by simp [hk]
        simp [dictSet, dictGet, this, ih]

theorem dictGet_dictSet_ne (m : Dict) (k v key : Str) (h : key ≠ k) :
    dictGet (dictSet m k v) key = dictGet m key := by
  induction m with
  | nil =>
    have hkk : (k == key) = false := by
      simp only [beq_eq_false_iff_ne, ne_eq]
      intro hh
      exact h hh.symm
    simp [dictSet, dictGet, hkk]
  | cons p rest ih =>
    cases p with
    | mk a b =>
      by_cases hk : a = k
      · subst hk
        have : (a == key) = false := by
          simp only [beq_eq_false_iff_ne, ne_eq]
          intro hh
          exact h hh.symm
        simp [dictSet, dictGet, this]
      · have hak : (a == k) = false := by simp [hk]
        by_cases hke : a = key
        · subst hke
          simp [dictSet, dictGet, hak]
        · have : (a == key) = false := by simp [hke]
          simp [dictSet, dictGet, hak, this, ih]

/-! ### Character-list (Python string) lemmas -/

theorem takeWhile_append_of (p : Char → Bool) (a l : Str)
    (h : ∀ x ∈ a, p x = true) :
    (a ++ l).takeWhile p = a ++ l.takeWhile p := by
  induction a with
  | nil => simp
  | cons c rest ih =>
    have hc : p c = true := h c (by simp)
    simp only [List.cons_append, List.takeWhile_cons, hc, if_true]
    rw [ih fun x hx => h x (by simp [hx])]

theorem dropWhile_append_of (p : Char → Bool) (a l : Str)
    (h : ∀ x ∈ a, p x = true) :
    (a ++ l).dropWhile p = l.dropWhile p := by
  induction a with
  | nil => simp
  | cons c rest ih =>
    have hc : p c = true := h c (by simp)
    simp only [List.cons_append, List.dropWhile_cons, hc, if_true]
    exact ih fun x hx => h x (by simp [hx])

theorem takeWhile_eq_self_of (p : Char → Bool) (l : Str)
    (h : ∀ x ∈ l, p x = true) : l.takeWhile p = l := by
  induction l with
  | nil => rfl
  | cons c rest ih =>
    have hc : p c = true := h c (by simp)
    simp only [List.takeWhile_cons, hc, if_true]
    rw [ih fun x hx => h x (by simp [hx])]

theorem dropWhile_eq_nil_of (p : Char → Bool) (l : Str)
    (h : ∀ x ∈ l, p x = true) : l.dropWhile p = [] := by
  induction l with
  | nil => rfl
  | cons c rest ih =>
    have hc : p c = true := h c (by simp)
    simp only [List.dropWhile_cons, hc, if_true]
    exact ih fun x hx => h x (by simp [hx])

/-- Stripping a string whose first and last characters are not whitespace
changes nothing. -/
theorem pyStrip_sandwich (c d : Char) (l : Str)
    (hc : c.isWhitespace = false) (hd : d.isWhitespace = false) :
    pyStrip (c :: l ++ [d]) = c :: l ++ [d] := by
  unfold pyStrip
  rw [List.cons_append, List.dropWhile_cons]
  simp only [hc, Bool.false_eq_true, if_false]
  have h2 : (c :: (l ++ [d])).reverse = d :: (l.reverse ++ [c]) := by simp
  rw [h2, List.dropWhile_cons]
  simp only [hd, Bool.false_eq_true, if_false]
  simp

/-- Stripping a leading whitespace character first. -/
theorem pyStrip_cons_ws (c : Char) (l : Str) (h : c.isWhitespace = true) :
    pyStrip (c :: l) = pyStrip l := by
  unfold pyStrip
  rw [List.dropWhile_cons, h]
  simp

/-- A string of whitespace strips to the empty string. -/
theorem pyStrip_eq_nil_of_ws (l : Str) (h : ∀ x ∈ l, x.isWhitespace = true) :
    pyStrip l = [] := by
  unfold pyStrip
  rw [dropWhile_eq_nil_of _ l h]
  rfl

/-- A singleton of a non-whitespace character strips to itself. -/
theorem pyStrip_singleton (c : Char) (hc : c.isWhitespace = false) :
    pyStrip [c] = [c] := by
  unfold pyStrip
  simp [List.dropWhile_cons, hc]

/-- Quote stripping removes a symmetric pair of double quotes. -/
theorem strip_quotes_dquote (v : Str) :
    strip_quotes ('"' :: v ++ ['"']) = v := by
  unfold strip_quotes
  rw [pyStrip_sandwich '"' '"' v (by decide) (by decide)]
  have hlast : ('"' :: v ++ ['"']).getLast? = some '"' := List.getLast?_concat _
  have hhead : ('"' :: v ++ ['"']).head? = some '"' := by
    rw [List.cons_append]
    rfl
  have hlen : 2 ≤ ('"' :: v ++ ['"']).length := by simp
  simp only [hlast, hhead, decide_eq_true_eq, hlen, decide_True, BEq.refl,
    Bool.true_and, Bool.true_or, Bool.or_self, Bool.and_self, if_true]
  rw [List.cons_append, List.drop_one, List.tail_cons, List.dropLast_concat]

/-- Quote stripping removes a symmetric pair of single quotes. -/
theorem strip_quotes_squote (v : Str) :
    strip_quotes ('\'' :: v ++ ['\'']) = v := by
  unfold strip_quotes
  rw [pyStrip_sandwich '\'' '\'' v (by decide) (by decide)]
  have hlast : ('\'' :: v ++ ['\'']).getLast? = some '\'' := List.getLast?_concat _
  have hhead : ('\'' :: v ++ ['\'']).head? = some '\'' := by
    rw [List.cons_append]
    rfl
  have hlen : 2 ≤ ('\'' :: v ++ ['\'']).length := by simp
  simp only [hlast, hhead, decide_eq_true_eq, hlen, decide_True, BEq.refl,
    Bool.true_and, Bool.or_true, Bool.or_self, Bool.and_self, if_true]
  rw [List.cons_append, List.drop_one, List.tail_cons, List.dropLast_concat]

/-- Inline-comment removal on a string that contains `#`: everything from the
first `#` on is dropped, escaped or not. -/
theorem remove_inline_comment_append (a b : Str) (h : '#' ∉ a) :
    remove_inline_comment (a ++ '#' :: b) = pyStrip a := by
  unfold remove_inline_comment
  rw [takeWhile_append_of _ a _ fun x hx => by
    simp only [bne_iff_ne, ne_eq]
    intro hh
    exact h (hh ▸ hx)]
  simp [List.takeWhile_cons]

/-- Inline-comment removal on a string without `#` only strips whitespace. -/
theorem remove_inline_comment_of_not_mem (s : Str) (h : '#' ∉ s) :
    remove_inline_comment s = pyStrip s := by
  unfold remove_inline_comment
  rw [takeWhile_eq_self_of _ s fun x hx => by
    simp only [bne_iff_ne, ne_eq]
    intro hh
    exact h (hh ▸ hx)]

/-! ### Parser-phase lemmas -/

/-- Key classification never changes an already-recorded key. -/
theorem classify_key_preserves (m : Dict) (ku v key : Str)
    (h : hasKey m key = true) :
    hasKey (classify_key m ku v) key = true ∧
      dictGet (classify_key m ku v) key = dictGet m key := by
  unfold classify_key
  split
  · exact ⟨hasKey_setdefault_of _ _ _ _ h, dictGet_setdefault_of_hasKey _ _ _ _ h⟩
  · split
    · exact ⟨hasKey_setdefault_of _ _ _ _ h, dictGet_setdefault_of_hasKey _ _ _ _ h⟩
    · exact ⟨hasKey_setdefault_of _ _ _ _ h, dictGet_setdefault_of_hasKey _ _ _ _ h⟩

/-- A single parsed line never changes an already-recorded key: the values
dict is only ever extended through `setdefault`. -/
theorem process_line_preserves (acc : Dict × List Str) (raw key : Str)
    (h : hasKey acc.1 key = true) :
    hasKey (process_line acc raw).1 key = true ∧
      dictGet (process_line acc raw).1 key = dictGet acc.1 key := by
  unfold process_line
  split
  · exact ⟨h, rfl⟩
  · split
    · exact ⟨h, rfl⟩
    · exact classify_key_preserves _ _ _ _ h

/-- Folding further lines over the parser state never changes an
already-recorded key. -/
theorem foldl_process_preserves (ls : List Str) (acc : Dict × List Str) (key : Str)
    (h : hasKey acc.1 key = true) :
    hasKey (ls.foldl process_line acc).1 key = true ∧
      dictGet (ls.foldl process_line acc).1 key = dictGet acc.1 key := by
  induction ls generalizing acc with
  | nil => exact ⟨h, rfl⟩
  | cons l ls ih =>
    obtain ⟨h1, h2⟩ := process_line_preserves acc l key h
    obtain ⟨h3, h4⟩ := ih _ h1
    exact ⟨h3, h4.trans h2⟩

/-- `seq_fill_primary` never changes an already-recorded key. -/
theorem seq_fill_primary_preserves (values : Dict) (s0 key : Str)
    (h : hasKey values key = true) :
    hasKey (seq_fill_primary values s0) key = true ∧
      dictGet (seq_fill_primary values s0) key = dictGet values key := by
  unfold seq_fill_primary
  split
  · exact ⟨h, rfl⟩
  · exact ⟨hasKey_setdefault_of _ _ _ _ h, dictGet_setdefault_of_hasKey _ _ _ _ h⟩

/-- `seq_fill_secondary` never changes an already-recorded key. -/
theorem seq_fill_secondary_preserves (values : Dict) (s1 key : Str)
    (h : hasKey values key = true) :
    hasKey (seq_fill_secondary values s1) key = true ∧
      dictGet (seq_fill_secondary values s1) key = dictGet values key := by
  unfold seq_fill_secondary
  split
  · exact ⟨h, rfl⟩
  · exact ⟨hasKey_setdefault_of _ _ _ _ h, dictGet_setdefault_of_hasKey _ _ _ _ h⟩

/-- The positional fallback never changes an already-recorded key. -/
theorem apply_sequential_preserves (values : Dict) (seq : List Str) (key : Str)
    (h : hasKey values key = true) :
    hasKey (apply_sequential values seq) key = true ∧
      dictGet (apply_sequential values seq) key = dictGet values key := by
  match seq with
  | [] => exact ⟨h, rfl⟩
  | [s0] => exact seq_fill_primary_preserves values s0 key h
  | s0 :: s1 :: more =>
    obtain ⟨h1, h2⟩ := seq_fill_primary_preserves values s0 key h
    obtain ⟨h3, h4⟩ := seq_fill_secondary_preserves (seq_fill_primary values s0) s1 key h1
    exact ⟨h3, h4.trans h2⟩

/-- `seq_fill_primary` touches only the primary slot. -/
theorem seq_fill_primary_other (values : Dict) (s0 key : Str)
    (hg : key ≠ GEMINI_API_KEY) :
    dictGet (seq_fill_primary values s0) key = dictGet values key ∧
      hasKey (seq_fill_primary values s0) key = hasKey values key := by
  unfold seq_fill_primary
  split
  · exact ⟨rfl, rfl⟩
  · exact ⟨dictGet_setdefault_ne _ _ _ _ fun e => hg e.symm,
      hasKey_setdefault_ne _ _ _ _ fun e => hg e.symm⟩

/-- `seq_fill_secondary` touches only the secondary slot. -/
theorem seq_fill_secondary_other (values : Dict) (s1 key : Str)
    (ho : key ≠ OPENAI_API_KEY) :
    dictGet (seq_fill_secondary values s1) key = dictGet values key ∧
      hasKey (seq_fill_secondary values s1) key = hasKey values key := by
  unfold seq_fill_secondary
  split
  · exact ⟨rfl, rfl⟩
  · exact ⟨dictGet_setdefault_ne _ _ _ _ fun e => ho e.symm,
      hasKey_setdefault_ne _ _ _ _ fun e => ho e.symm⟩

/-- The positional fallback touches no key other than the two canonical
credential slots. -/
theorem apply_sequential_other_keys (values : Dict) (seq : List Str) (key : Str)
    (hg : key ≠ GEMINI_API_KEY) (ho : key ≠ OPENAI_API_KEY) :
    dictGet (apply_sequential values seq) key = dictGet values key ∧
      hasKey (apply_sequential values seq) key = hasKey values key := by
  match seq with
  | [] => exact ⟨rfl, rfl⟩
  | [s0] => exact seq_fill_primary_other values s0 key hg
  | s0 :: s1 :: more =>
    obtain ⟨h1, h2⟩ := seq_fill_primary_other values s0 key hg
    obtain ⟨h3, h4⟩ := seq_fill_secondary_other (seq_fill_primary values s0) s1 key ho
    exact ⟨h3.trans h1, h4.trans h2⟩

/-- When the primary slot is unset after parsing, a non-empty first fallback
entry fills it, whatever else the dict contains. -/
theorem apply_sequential_fills_primary (values : Dict) (s0 : Str) (rest : List Str)
    (h : hasKey values GEMINI_API_KEY = false) (h0 : s0 ≠ []) :
    dictGet (apply_sequential values (s0 :: rest)) GEMINI_API_KEY = s0 := by
  have he : s0.isEmpty = false := by
    cases s0
    · exact absurd rfl h0
    · rfl
  have hfill : dictGet (seq_fill_primary values s0) GEMINI_API_KEY = s0 := by
    unfold seq_fill_primary
    rw [he]
    simp only [Bool.false_eq_true, if_false]
    exact dictGet_setdefault_self _ _ _ h
  match rest with
  | [] => exact hfill
  | s1 :: more =>
    exact (seq_fill_secondary_other _ s1 _ (by decide)).1.trans hfill

/-- When the secondary slot is unset after parsing, a non-empty second
fallback entry fills it, whatever else the dict contains. -/
theorem apply_sequential_fills_secondary (values : Dict) (s0 s1 : Str)
    (rest : List Str) (h : hasKey values OPENAI_API_KEY = false) (h1 : s1 ≠ []) :
    dictGet (apply_sequential values (s0 :: s1 :: rest)) OPENAI_API_KEY = s1 := by
  have he : s1.isEmpty = false := by
    cases s1
    · exact absurd rfl h1
    · rfl
  have hkeep : hasKey (seq_fill_primary values s0) OPENAI_API_KEY = false :=
    (seq_fill_primary_other values s0 OPENAI_API_KEY (by decide)).2.trans h
  show dictGet (seq_fill_secondary (seq_fill_primary values s0) s1) OPENAI_API_KEY = s1
  unfold seq_fill_secondary
  rw [he]
  simp only [Bool.false_eq_true, if_false]
  exact dictGet_setdefault_self _ _ _ hkeep

/-- An empty first fallback entry leaves the primary slot untouched. -/
theorem apply_sequential_skips_empty_primary (values : Dict) (rest : List Str) :
    hasKey (apply_sequential values ([] :: rest)) GEMINI_API_KEY
      = hasKey values GEMINI_API_KEY := by
  have hid : seq_fill_primary values [] = values := by
    unfold seq_fill_primary
    rfl
  match rest with
  | [] => exact congrArg (fun m => hasKey m GEMINI_API_KEY) hid
  | s1 :: more =>
    show hasKey (seq_fill_secondary (seq_fill_primary values []) s1) GEMINI_API_KEY = _
    rw [hid]
    exact (seq_fill_secondary_other values s1 GEMINI_API_KEY (by decide)).2

/-- An empty second fallback entry leaves the secondary slot untouched. -/
theorem apply_sequential_skips_empty_secondary (values : Dict) (s0 : Str)
    (rest : List Str) :
    hasKey (apply_sequential values (s0 :: [] :: rest)) OPENAI_API_KEY
      = hasKey values OPENAI_API_KEY := by
  show hasKey (seq_fill_secondary (seq_fill_primary values s0) []) OPENAI_API_KEY = _
  have hid : seq_fill_secondary (seq_fill_primary values s0) [] = seq_fill_primary values s0 := by
    unfold seq_fill_secondary
    rfl
  rw [hid]
  exact (seq_fill_primary_other values s0 OPENAI_API_KEY (by decide)).2


/-- Newline-terminated concatenation of a list of lines. -/
def joinLinesNL : List Str → Str
  | [] => []
  | x :: rest => x ++ str "\n" ++ joinLinesNL rest

theorem intercalate_nl (l : List Str) (x : Str) :
    List.intercalate (str "\n") (x :: l) ++ str "\n"
      = x ++ str "\n" ++ joinLinesNL l := by
  induction l generalizing x with
  | nil => simp [List.intercalate, joinLinesNL]
  | cons y rest ih =>
    have h : List.intercalate (str "\n") (x :: y :: rest)
        = x ++ str "\n" ++ List.intercalate (str "\n") (y :: rest) := by
      simp [List.intercalate, List.intersperse_cons_cons, List.append_assoc]
    rw [h, List.append_assoc, ih y]
    rfl

/-- The extra (non-canonical) entries of the dict, in insertion order. -/
def extra_entries (values : Dict) : Dict :=
  values.filter (fun p => !(p.1 == GEMINI_API_KEY) && !(p.1 == OPENAI_API_KEY))

def format_env_spec (values : Dict) : Str :=
  joinLinesNL
    (str "# 環境変数設定"
      :: (GEMINI_API_KEY ++ str "=" ++ dictGet values GEMINI_API_KEY)
      :: (OPENAI_API_KEY ++ str "=" ++ dictGet values OPENAI_API_KEY)
      :: (extra_entries values).map (fun p => p.1 ++ str "=" ++ p.2))

theorem format_env_eq_spec (values : Dict) :
    format_env values = format_env_spec values := by
  unfold format_env format_env_spec format_env_lines extra_entries
  simp only [List.cons_append, List.nil_append]
  exact intercalate_nl _ _

theorem load_quoted_gemini_line (v : Str) (hv : '#' ∉ v) :
    load_keys_file [str "Gemini_Api_Key = \"" ++ v ++ ['"']]
      = [(GEMINI_API_KEY, v)] := by
  have e1 : pyStrip (str "Gemini_Api_Key = \"" ++ v ++ ['"'])
      = str "Gemini_Api_Key = \"" ++ v ++ ['"'] :=
    pyStrip_sandwich 'G' '"' (str "emini_Api_Key = \"" ++ v) (by decide) (by decide)
  have hempty : (str "Gemini_Api_Key = \"" ++ v ++ ['"']).isEmpty = false := rfl
  have hhead : (str "Gemini_Api_Key = \"" ++ v ++ ['"']).head? = some 'G' := rfl
  have hcontains : (str "Gemini_Api_Key = \"" ++ v ++ ['"']).contains '=' = true := rfl
  have htake : (str "Gemini_Api_Key = \"" ++ v ++ ['"']).takeWhile (fun c => c != '=')
      = str "Gemini_Api_Key " := rfl
  have hdrop : ((str "Gemini_Api_Key = \"" ++ v ++ ['"']).dropWhile (fun c => c != '=')).drop 1
      = ' ' :: '"' :: (v ++ ['"']) := rfl
  have hval : pyStrip (' ' :: '"' :: (v ++ ['"'])) = '"' :: (v ++ ['"']) := by
    rw [pyStrip_cons_ws ' ' _ (by decide)]
    exact pyStrip_sandwich '"' '"' v (by decide) (by decide)
  have hcond : ((str "Gemini_Api_Key = \"" ++ v ++ ['\"']).isEmpty
      || (str "Gemini_Api_Key = \"" ++ v ++ ['\"']).head? == some '#') = false := rfl
  have hsplit : split_first (str "Gemini_Api_Key = \"" ++ v ++ ['\"']) '='
      = (str "Gemini_Api_Key", '"' :: (v ++ ['\"'])) := by
    unfold split_first
    rw [htake, hdrop, hval]
    exact congrArg (fun s => (s, '"' :: (v ++ ['\"']))) (by decide)
  have hparse2 : parse_key_line (str "Gemini_Api_Key = \"" ++ v ++ ['\"'])
      = some (str "Gemini_Api_Key", '"' :: (v ++ ['\"'])) := by
    unfold parse_key_line
    rw [hcontains, hsplit]
    simp
  have hnot : '#' ∉ ('"' :: (v ++ ['\"'])) := by
    intro h
    simp only [List.mem_cons, List.mem_append, List.mem_singleton] at h
    rcases h with h | h | h
    · exact absurd h (by decide)
    · exact hv h
    · exact absurd h (by decide)
  have hvalue : strip_quotes (remove_inline_comment ('"' :: (v ++ ['\"']))) = v := by
    rw [remove_inline_comment_of_not_mem _ hnot]
    have h2 : pyStrip ('"' :: (v ++ ['\"'])) = '"' :: (v ++ ['\"']) :=
      pyStrip_sandwich '"' '"' v (by decide) (by decide)
    rw [h2]
    exact strip_quotes_dquote v
  have hupper : pyUpper (str "Gemini_Api_Key") = str "GEMINI_API_KEY" := by decide
  have hclass : classify_key [] (pyUpper (str "Gemini_Api_Key")) v = [(GEMINI_API_KEY, v)] := by
    unfold classify_key
    rw [hupper]
    rw [if_pos (by decide)]
    rfl
  have hstep : process_line ([], []) (str "Gemini_Api_Key = \"" ++ v ++ ['\"'])
      = ([(GEMINI_API_KEY, v)], []) := by
    unfold process_line
    rw [e1, hcond, hparse2]
    simp only [Bool.false_eq_true, if_false]
    rw [hvalue, hclass]
  show apply_sequential (parse_lines [str "Gemini_Api_Key = \"" ++ v ++ ['\"']]).1
      (parse_lines [str "Gemini_Api_Key = \"" ++ v ++ ['\"']]).2 = _
  unfold parse_lines
  rw [List.foldl_cons, List.foldl_nil, hstep]
  rfl

/-! ### Splitting lemmas for `parse_key_line` -/

/-- A line containing `=` splits at its first `=`, preferring `=` even when
`:` also occurs; left and right parts are whitespace-trimmed. -/
theorem parse_key_line_eq_split (a b : Str) (ha : '=' ∉ a) :
    parse_key_line (a ++ '=' :: b) = some (pyStrip a, pyStrip b) := by
  have hc : (a ++ '=' :: b).contains '=' = true := by
    simp
  have hpa : ∀ x ∈ a, (x != '=') = true := by
    intro x hx
    simp only [bne_iff_ne, ne_eq]
    intro hh
    exact ha (hh ▸ hx)
  have htake : (a ++ '=' :: b).takeWhile (fun c => c != '=') = a := by
    rw [takeWhile_append_of _ a _ hpa]
    simp [List.takeWhile_cons]
  have hdrop : ((a ++ '=' :: b).dropWhile (fun c => c != '=')).drop 1 = b := by
    rw [dropWhile_append_of _ a _ hpa]
    simp [List.dropWhile_cons]
  unfold parse_key_line split_first
  rw [hc, htake, hdrop]
  simp

/-- A line containing `:` but no `=` splits at its first `:`. -/
theorem parse_key_line_colon_split (a b : Str) (hea : '=' ∉ a) (heb : '=' ∉ b)
    (hca : ':' ∉ a) :
    parse_key_line (a ++ ':' :: b) = some (pyStrip a, pyStrip b) := by
  have hmem : '=' ∉ a ++ ':' :: b := by
    simp only [List.mem_append, List.mem_cons, not_or]
    exact ⟨hea, by decide, heb⟩
  have hce : (a ++ ':' :: b).contains '=' = false := by
    simpa using hmem
  have hcc : (a ++ ':' :: b).contains ':' = true := by
    simp
  have hpa : ∀ x ∈ a, (x != ':') = true := by
    intro x hx
    simp only [bne_iff_ne, ne_eq]
    intro hh
    exact hca (hh ▸ hx)
  have htake : (a ++ ':' :: b).takeWhile (fun c => c != ':') = a := by
    rw [takeWhile_append_of _ a _ hpa]
    simp [List.takeWhile_cons]
  have hdrop : ((a ++ ':' :: b).dropWhile (fun c => c != ':')).drop 1 = b := by
    rw [dropWhile_append_of _ a _ hpa]
    simp [List.dropWhile_cons]
  unfold parse_key_line split_first
  rw [hce, hcc, htake, hdrop]
  simp

/-- A line with neither separator is not split. -/
theorem parse_key_line_none (l : Str) (h1 : '=' ∉ l) (h2 : ':' ∉ l) :
    parse_key_line l = none := by
  have hce : l.contains '=' = false := by
    simpa using h1
  have hcc : l.contains ':' = false := by
    simpa using h2
  unfold parse_key_line
  rw [hce, hcc]
  simp

/-- A non-blank, non-comment line that does not parse as `KEY=VALUE` or
`KEY: VALUE` is appended (comment-trimmed and quote-stripped) to the
sequential fallback list, leaving the values dict alone. -/
theorem process_line_fallback (acc : Dict × List Str) (raw : Str)
    (hp : parse_key_line (pyStrip raw) = none)
    (hne : (pyStrip raw).isEmpty = false)
    (hh : ((pyStrip raw).head? == some '#') = false) :
    process_line acc raw
      = (acc.1, acc.2 ++ [strip_quotes (remove_inline_comment (pyStrip raw))]) := by
  unfold process_line
  rw [hne, hh, hp]
  simp

/-! ### Claims

Each claim of the specification review is settled by one theorem below;
counterexample theorems exhibit concrete inputs refuting a claim as
originally stated, and witness theorems instantiate the hypotheses of the
universally quantified theorems at concrete inputs. -/

/-- C1, counterexample: with no key-listing file and empty interactive
answers, the written `.env` content is not only the two canonical key lines —
it begins with the comment header line `# 環境変数設定`, so the claim's
"no other lines" fails. -/
theorem C1_header_counterexample :
    create_env_from_keys none (PromptResult.answered [] [])
      = EnvOutcome.written (str "# 環境変数設定\nGEMINI_API_KEY=\nOPENAI_API_KEY=\n")
    ∧ str "# 環境変数設定\nGEMINI_API_KEY=\nOPENAI_API_KEY=\n"
      ≠ str "GEMINI_API_KEY=\nOPENAI_API_KEY=\n"
    ∧ (str "# 環境変数設定\nGEMINI_API_KEY=\nOPENAI_API_KEY=\n").head? = some '#' := by
  decide

/-- C1 (amended): the environment-file content written by the synthesizer is
a fixed comment header line, then the two well-known keys GEMINI_API_KEY and
OPENAI_API_KEY in that order as KEY=VALUE lines with empty string when unset,
then the extra recognized keys in first-encountered order, every line
newline-terminated (hence a trailing newline); with no key-listing file and
empty interactive answers, the file holds the header and both canonical keys
with empty values and no other lines. -/
theorem C1_env_file_layout :
    (∀ values : Dict, format_env values = format_env_spec values)
    ∧ create_env_from_keys none (PromptResult.answered [] [])
      = EnvOutcome.written (str "# 環境変数設定\nGEMINI_API_KEY=\nOPENAI_API_KEY=\n") :=
  ⟨format_env_eq_spec, by decide⟩

/-- C2, counterexample: comment trimming is not limited to unescaped `#` —
for the value `abc\#def`, whose only `#` is backslash-escaped, everything
from the `#` on is still discarded, in the helper and in the final mapping. -/
theorem C2_escaped_hash_counterexample :
    remove_inline_comment (str "abc\\#def") = str "abc\\"
    ∧ str "abc\\" ≠ str "abc\\#def"
    ∧ load_keys_file [str "GEMINI_API_KEY=abc\\#def"]
      = [(GEMINI_API_KEY, str "abc\\")] := by
  decide

/-- C2 (amended): inline-comment trimming discards the text from the first
`#` character on, escaped or not; afterwards symmetric quote stripping
removes a matching pair of double or single quotes; for `KEY=VALUE` input
with a `#`-free, double-quoted value the mapping's value is exactly the
unquoted comment-trimmed text. -/
theorem C2_trimming_pipeline :
    (∀ a b : Str, '#' ∉ a → remove_inline_comment (a ++ '#' :: b) = pyStrip a)
    ∧ (∀ s : Str, '#' ∉ s → remove_inline_comment s = pyStrip s)
    ∧ (∀ v : Str, strip_quotes ('"' :: v ++ ['"']) = v)
    ∧ (∀ v : Str, strip_quotes ('\'' :: v ++ ['\'']) = v)
    ∧ (∀ v : Str, '#' ∉ v →
        load_keys_file [str "Gemini_Api_Key = \"" ++ v ++ ['"']]
          = [(GEMINI_API_KEY, v)]) :=
  ⟨remove_inline_comment_append, remove_inline_comment_of_not_mem,
   strip_quotes_dquote, strip_quotes_squote, load_quoted_gemini_line⟩

/-- C2 witness: the amended trimming theorem at concrete inputs. -/
theorem C2_trimming_pipeline_witness :
    remove_inline_comment (str "ab" ++ '#' :: str "cd") = pyStrip (str "ab")
    ∧ load_keys_file [str "Gemini_Api_Key = \"" ++ str "s3cr3t" ++ ['"']]
      = [(GEMINI_API_KEY, str "s3cr3t")] :=
  ⟨C2_trimming_pipeline.1 (str "ab") (str "cd") (by decide),
   C2_trimming_pipeline.2.2.2.2 (str "s3cr3t") (by decide)⟩

/-- C3, counterexample: with the file `FOO=bar` / `someseq` a named key (FOO)
is recognized, yet the sequential fallback still fills the primary slot with
`someseq`, so the fallback is not used "only when no named keys were
recognized". -/
theorem C3_fallback_counterexample :
    load_keys_file [str "FOO=bar", str "someseq"]
      = [(str "FOO", str "bar"), (GEMINI_API_KEY, str "someseq")]
    ∧ (str "FOO", str "bar") ∈ load_keys_file [str "FOO=bar", str "someseq"]
    ∧ (GEMINI_API_KEY, str "someseq") ∈ load_keys_file [str "FOO=bar", str "someseq"] := by
  decide

/-- C3 (amended): the sequential fallback list is applied after line parsing
whether or not named keys were recognized, but it only fills the two canonical
credential slots that are still unset: it never changes an already-recorded
key and never adds any key other than the two canonical slots. -/
theorem C3_fallback_scope :
    (∀ lines : List Str,
        load_keys_file lines
          = apply_sequential (parse_lines lines).1 (parse_lines lines).2)
    ∧ (∀ (values : Dict) (seq : List Str) (key : Str), hasKey values key = true →
        dictGet (apply_sequential values seq) key = dictGet values key)
    ∧ (∀ (values : Dict) (seq : List Str) (key : Str),
        key ≠ GEMINI_API_KEY → key ≠ OPENAI_API_KEY →
        hasKey (apply_sequential values seq) key = hasKey values key)
    ∧ (∀ (values : Dict) (s0 : Str) (rest : List Str),
        hasKey values GEMINI_API_KEY = false → s0 ≠ [] →
        dictGet (apply_sequential values (s0 :: rest)) GEMINI_API_KEY = s0) :=
  ⟨fun _ => rfl,
   fun values seq key h => (apply_sequential_preserves values seq key h).2,
   fun values seq key hg ho => (apply_sequential_other_keys values seq key hg ho).2,
   apply_sequential_fills_primary⟩

/-- C3 witness: the fallback fills the unset primary slot even though the
dict already holds the recognized named key FOO. -/
theorem C3_fallback_scope_witness :
    dictGet (apply_sequential [(str "FOO", str "bar")] [str "someseq"])
      GEMINI_API_KEY = str "someseq" :=
  C3_fallback_scope.2.2.2 [(str "FOO", str "bar")] (str "someseq") [] (by decide)
    (by decide)

/-- C4: after line parsing, a still-unset primary slot is filled from fallback
index 0 and a still-unset secondary slot from index 1, each only when that
entry is a non-empty string; a file of exactly two unlabeled non-empty lines
yields the first line's value in the primary slot and the second in the
secondary slot. -/
theorem C4_positional_fallback :
    (∀ (values : Dict) (s0 : Str) (rest : List Str),
        hasKey values GEMINI_API_KEY = false → s0 ≠ [] →
        dictGet (apply_sequential values (s0 :: rest)) GEMINI_API_KEY = s0)
    ∧ (∀ (values : Dict) (s0 s1 : Str) (rest : List Str),
        hasKey values OPENAI_API_KEY = false → s1 ≠ [] →
        dictGet (apply_sequential values (s0 :: s1 :: rest)) OPENAI_API_KEY = s1)
    ∧ (∀ (values : Dict) (rest : List Str),
        hasKey (apply_sequential values ([] :: rest)) GEMINI_API_KEY
          = hasKey values GEMINI_API_KEY)
    ∧ (∀ (values : Dict) (s0 : Str) (rest : List Str),
        hasKey (apply_sequential values (s0 :: [] :: rest)) OPENAI_API_KEY
          = hasKey values OPENAI_API_KEY)
    ∧ load_keys_file [str "first-line", str "second-line"]
      = [(GEMINI_API_KEY, str "first-line"), (OPENAI_API_KEY, str "second-line")]
    ∧ format_env (load_keys_file [str "first-line", str "second-line"])
      = str "# 環境変数設定\nGEMINI_API_KEY=first-line\nOPENAI_API_KEY=second-line\n" :=
  ⟨apply_sequential_fills_primary, apply_sequential_fills_secondary,
   apply_sequential_skips_empty_primary, apply_sequential_skips_empty_secondary,
   by decide, by decide⟩

/-- C4 witness: the positional fill at a concrete two-entry fallback list. -/
theorem C4_positional_fallback_witness :
    dictGet (apply_sequential [] [str "first-line", str "second-line"])
      GEMINI_API_KEY = str "first-line" :=
  C4_positional_fallback.1 [] (str "first-line") [str "second-line"] (by decide)
    (by decide)

/-- C5: the first occurrence of a classified key fixes its stored value —
appending any further lines to the file never changes a key already recorded
by the earlier lines; in particular a labeled gemini-style key followed by a
duplicate gemini-style key keeps the first value. -/
theorem C5_first_occurrence_wins :
    (∀ (lines more : List Str) (key : Str),
        hasKey (parse_lines lines).1 key = true →
        dictGet (load_keys_file (lines ++ more)) key
          = dictGet (parse_lines lines).1 key)
    ∧ load_keys_file [str "GEMINI_API_KEY=first", str "gemini_api_key: second"]
      = [(GEMINI_API_KEY, str "first")] := by
  refine ⟨?_, by decide⟩
  intro lines more key h
  unfold load_keys_file
  have hsplit : parse_lines (lines ++ more)
      = more.foldl process_line (parse_lines lines) := by
    unfold parse_lines
    rw [List.foldl_append]
  rw [hsplit]
  obtain ⟨h1, h2⟩ := foldl_process_preserves more (parse_lines lines) key h
  obtain ⟨_, h4⟩ := apply_sequential_preserves _ _ key h1
  exact h4.trans h2

/-- C5 witness: an earlier `A=1` survives a later `A=2`. -/
theorem C5_first_occurrence_wins_witness :
    dictGet (load_keys_file ([str "A=1"] ++ [str "A=2"])) (str "A")
      = dictGet (parse_lines [str "A=1"]).1 (str "A") :=
  C5_first_occurrence_wins.1 [str "A=1"] [str "A=2"] (str "A") (by decide)

/-- C6: a line containing `=` splits at its first `=` (taking trimmed left
and right parts) even when `:` is also present; a line with `:` but no `=`
splits at its first `:`; a line with neither separator is not split, and a
non-blank non-comment such line is appended comment-trimmed and
quote-stripped to the sequential fallback list. -/
theorem C6_separator_splitting :
    (∀ a b : Str, '=' ∉ a →
        parse_key_line (a ++ '=' :: b) = some (pyStrip a, pyStrip b))
    ∧ (∀ a b : Str, '=' ∉ a → '=' ∉ b → ':' ∉ a →
        parse_key_line (a ++ ':' :: b) = some (pyStrip a, pyStrip b))
    ∧ (∀ l : Str, '=' ∉ l → ':' ∉ l → parse_key_line l = none)
    ∧ (∀ (acc : Dict × List Str) (raw : Str),
        parse_key_line (pyStrip raw) = none → (pyStrip raw).isEmpty = false →
        ((pyStrip raw).head? == some '#') = false →
        process_line acc raw
          = (acc.1, acc.2 ++ [strip_quotes (remove_inline_comment (pyStrip raw))])) :=
  ⟨parse_key_line_eq_split, parse_key_line_colon_split, parse_key_line_none,
   process_line_fallback⟩

/-- C6 witness: splitting and the fallback append at concrete lines. -/
theorem C6_separator_splitting_witness :
    parse_key_line (str "KEY" ++ '=' :: str " value")
      = some (pyStrip (str "KEY"), pyStrip (str " value"))
    ∧ process_line ([], []) (str "loose-value")
      = ([], [] ++ [strip_quotes (remove_inline_comment (pyStrip (str "loose-value")))]) :=
  ⟨C6_separator_splitting.1 (str "KEY") (str " value") (by decide),
   C6_separator_splitting.2.2.2 ([], []) (str "loose-value") (by decide) (by decide)
     (by decide)⟩

/-- C7: the installer returns the current runtime's path exactly on a zero
install exit status; on a non-zero status it delegates to the
virtual-environment fallback exactly when the captured stderr contains the
externally-managed marker — the fallback invoking the creation command once
when `.venv` does not exist and zero times when it does — and returns null on
any other failure, including failures of the fallback's create or install
steps. -/
theorem C7_installer_contract : ∀ env : InstallEnv,
    ((env.pipExitCode = 0 →
        install_dependencies env = ⟨some PythonPath.currentExecutable, 0⟩)
      ∧ (env.pipExitCode ≠ 0 →
        (install_dependencies env).result ≠ some PythonPath.currentExecutable))
    ∧ (env.pipExitCode ≠ 0 →
        isSubOf (str "externally-managed-environment") env.pipStderr = true →
        install_dependencies env = install_with_virtualenv env
          ∧ (install_with_virtualenv env).venvCreations
            = if env.venvExists then 0 else 1)
    ∧ (env.pipExitCode ≠ 0 →
        isSubOf (str "externally-managed-environment") env.pipStderr = false →
        install_dependencies env = ⟨none, 0⟩)
    ∧ (env.venvExists = false → env.venvCreateOk = false →
        (install_with_virtualenv env).result = none)
    ∧ (env.venvInstallOk = false → (install_with_virtualenv env).result = none) := by
  intro env
  have hcre : (install_with_virtualenv env).venvCreations
      = if env.venvExists then 0 else 1 := by
    cases hve : env.venvExists <;>
      simp only [install_with_virtualenv, hve, Bool.not_false, Bool.not_true,
        Bool.false_eq_true, if_false, if_true] <;>
      split_ifs <;> rfl
  have hnc : (install_with_virtualenv env).result
      ≠ some PythonPath.currentExecutable := by
    simp only [install_with_virtualenv]
    split_ifs <;> simp
  refine ⟨⟨?_, ?_⟩, ?_, ?_, ?_, ?_⟩
  · intro h
    simp [install_dependencies, h]
  · intro h
    have hpc : (env.pipExitCode == 0) = false := by simpa using h
    simp only [install_dependencies, hpc, Bool.false_eq_true, if_false]
    split
    · exact hnc
    · simp
  · intro h hs
    have hpc : (env.pipExitCode == 0) = false := by simpa using h
    refine ⟨?_, hcre⟩
    simp [install_dependencies, hpc, hs]
  · intro h hs
    have hpc : (env.pipExitCode == 0) = false := by simpa using h
    simp [install_dependencies, hpc, hs]
  · intro h1 h2
    simp [install_with_virtualenv, h1, h2]
  · intro h
    simp only [install_with_virtualenv]
    split_ifs <;> simp_all

/-- C7 witness: a failed install whose stderr is the externally-managed
marker delegates to the fallback, which on a fresh directory creates the
environment once. -/
theorem C7_installer_contract_witness :
    install_dependencies ⟨1, str "externally-managed-environment", false, true, true⟩
      = install_with_virtualenv
          ⟨1, str "externally-managed-environment", false, true, true⟩
    ∧ (install_with_virtualenv
          ⟨1, str "externally-managed-environment", false, true, true⟩).venvCreations
      = if (false : Bool) then 0 else 1 :=
  (C7_installer_contract ⟨1, str "externally-managed-environment", false, true, true⟩).2.1
    (by decide) (by decide)

/-- C8: a user interrupt during interactive prompting aborts env-file
creation with nothing written — the write happens only after prompting
completes, and the interrupt is absorbed into the reported-abort outcome
rather than propagating. -/
theorem C8_interrupt_aborts :
    ∀ keysFile : Option (List Str),
      (load_keys_from keysFile).isEmpty = true →
      create_env_from_keys keysFile PromptResult.interrupted = EnvOutcome.aborted := by
  intro kf h
  unfold create_env_from_keys
  rw [h]
  rfl

/-- C8 witness: with no key-listing file, an interrupt while prompting
leaves no environment file. -/
theorem C8_interrupt_aborts_witness :
    create_env_from_keys none PromptResult.interrupted = EnvOutcome.aborted :=
  C8_interrupt_aborts none rfl

/-- C9: the launcher always invokes the target module through the resolved
interpreter with PORT=25254 set on top of the inherited environment; a
non-zero child exit is reported as a failure and an interrupt as a graceful
stop, neither propagating. -/
theorem C9_launcher_contract :
    ∀ (python_exec : Str) (osEnviron : Dict) (child : ChildResult),
      (run_application python_exec osEnviron child).1
        = ⟨python_exec, [str "-m", str "app.main"],
            dictSet osEnviron (str "PORT") (str "25254")⟩
      ∧ dictGet (run_application python_exec osEnviron child).1.env (str "PORT")
        = str "25254"
      ∧ (∀ key : Str, key ≠ str "PORT" →
          dictGet (run_application python_exec osEnviron child).1.env key
            = dictGet osEnviron key)
      ∧ (child = ChildResult.interrupt →
          (run_application python_exec osEnviron child).2 = RunOutcome.reportedStop)
      ∧ (∀ c : Nat, child = ChildResult.exits (c + 1) →
          (run_application python_exec osEnviron child).2
            = RunOutcome.reportedFailure (c + 1))
      ∧ (child = ChildResult.exits 0 →
          (run_application python_exec osEnviron child).2 = RunOutcome.completed) := by
  intro pe oe child
  have h1 : (run_application pe oe child).1
      = ⟨pe, [str "-m", str "app.main"], dictSet oe (str "PORT") (str "25254")⟩ := by
    cases child with
    | exits c => cases c <;> rfl
    | interrupt => rfl
  refine ⟨h1, ?_, ?_, ?_, ?_, ?_⟩
  · rw [h1]
    exact dictGet_dictSet_self oe _ _
  · intro key hk
    rw [h1]
    exact dictGet_dictSet_ne oe _ _ key hk
  · intro hc
    subst hc
    rfl
  · intro c hc
    subst hc
    rfl
  · intro hc
    subst hc
    rfl

/-- C9 witness: an interrupt during the child run is reported as a stop. -/
theorem C9_launcher_contract_witness :
    (run_application (str "python3") [] ChildResult.interrupt).2
      = RunOutcome.reportedStop :=
  (C9_launcher_contract (str "python3") [] ChildResult.interrupt).2.2.2.1 rfl

/-- C10: a line whose first separator is at position 0, or whose left part is
all whitespace, parses to the empty-string key; that key is stored as an
extra key unless already present, and the synthesized env file then contains
a line beginning with `=` and carrying no key name. -/
theorem C10_empty_key_line :
    (∀ b : Str, parse_key_line ('=' :: b) = some ([], pyStrip b))
    ∧ (∀ a b : Str, (∀ c ∈ a, c.isWhitespace = true) →
        parse_key_line (a ++ '=' :: b) = some ([], pyStrip b))
    ∧ load_keys_file [str "=value"] = [([], str "value")]
    ∧ load_keys_file [str "=v1", str ": v2"] = [([], str "v1")]
    ∧ format_env (load_keys_file [str "=value"])
      = str "# 環境変数設定\nGEMINI_API_KEY=\nOPENAI_API_KEY=\n=value\n" := by
  refine ⟨?_, ?_, by decide, by decide, by decide⟩
  · intro b
    exact parse_key_line_eq_split [] b (by simp)
  · intro a b h
    have ha : '=' ∉ a := fun hm => absurd (h '=' hm) (by decide)
    rw [parse_key_line_eq_split a b ha, pyStrip_eq_nil_of_ws a h]

/-- C10 witness: a whitespace-only left part yields the empty-string key. -/
theorem C10_empty_key_line_witness :
    parse_key_line (str " " ++ '=' :: str "value")
      = some ([], pyStrip (str "value")) :=
  C10_empty_key_line.2.1 (str " ") (str "value") (by decide)

end RunLocal
